import Mathlib

/-!
Shallow embedding of the logtail widget (`src/LogTailWidget.cpp` /
`src/LogTailWidget.h`): the tail engine that seeds a bounded line buffer
from a file, reads deltas on change notifications, detects rotation,
splits bytes into trimmed non-empty lines, classifies lines by severity
keywords, and persists its configuration as a JSON object.
-/

namespace LogTail

/-- Bytes of a file are modelled as natural numbers `< 256`; the newline
byte is `10`. -/
abbrev Byte := Nat

/-- Whitespace predicate on bytes, mirroring the characters stripped by
`QString::trimmed` over the ASCII range (space and `\t \n \v \f \r`). -/
def isSpaceByte (b : Byte) : Bool := b == 32 || (9 ≤ b && b ≤ 13)

/-- Embedding of `QByteArray::split('\n')`: cut the byte list at every
newline byte, keeping empty segments (so `"a\n"` yields `["a", ""]` and
the empty array yields `[""]`). -/
def splitNL : List Byte → List (List Byte)
  | [] => [[]]
  | b :: rest =>
    if b = 10 then [] :: splitNL rest
    else
      match splitNL rest with
      | [] => [[b]]
      | s :: ss => (b :: s) :: ss

/-- Embedding of `QString::trimmed()` at the byte level: strip leading and
trailing whitespace bytes. -/
def trimBytes (bs : List Byte) : List Byte :=
  ((bs.dropWhile isSpaceByte).reverse.dropWhile isSpaceByte).reverse

/-- Embedding of the line-extraction loop appearing in `startFileTail` and
`onFileChanged`: split the raw bytes on newlines, trim every segment and
drop the segments that became empty. -/
def toLines (data : List Byte) : List (List Byte) :=
  ((splitNL data).map trimBytes).filter (fun l => !l.isEmpty)

/-- A line retained by the view: either trimmed content bytes or one of the
synthetic status lines the widget appends (`"─── log rotated ───"`,
`"Cannot open: <path>"`, `"journalctl: failed to start"`). -/
inductive TailLine where
  | content (bytes : List Byte)
  | rotationMarker
  | cannotOpen
  | journalStartFailed
  deriving DecidableEq, Repr

/-- Modelled from the spec: the bounded line buffer. The widget delegates
eviction to `QPlainTextEdit::setMaximumBlockCount(config_.maxLines)`
(`applySource`, line 195), whose documented behaviour the spec states as
FIFO eviction of the oldest lines once the capacity is exceeded. One
append: add at the end, then drop from the front down to the capacity. -/
def tbAppend (cap : Nat) (buf : List TailLine) (l : TailLine) : List TailLine :=
  let b := buf ++ [l]
  b.drop (b.length - cap)

/-- Appending a batch of lines (`appendLines`) is a left fold of single
appends. -/
def tbAppendAll (cap : Nat) (buf : List TailLine) (ls : List TailLine) : List TailLine :=
  ls.foldl (tbAppend cap) buf

theorem tbAppendAll_nil (cap : Nat) (buf : List TailLine) :
    tbAppendAll cap buf [] = buf := rfl

theorem tbAppendAll_append (cap : Nat) (buf : List TailLine) (l₁ l₂ : List TailLine) :
    tbAppendAll cap buf (l₁ ++ l₂) = tbAppendAll cap (tbAppendAll cap buf l₁) l₂ :=
  List.foldl_append _ _ _ _

theorem drop_append_left {α : Type} (X Y : List α) (k : Nat) (h : k ≤ X.length) :
    X.drop k ++ Y = (X ++ Y).drop k := by
  rw [List.drop_append_eq_append_drop, Nat.sub_eq_zero_of_le h, List.drop_zero]

theorem tbAppendAll_eq_drop (cap : Nat) :
    ∀ (ls buf : List TailLine), buf.length ≤ cap →
      tbAppendAll cap buf ls = (buf ++ ls).drop (buf.length + ls.length - cap) := by
  intro ls
  induction ls with
  | nil =>
      intro buf h
      simp [tbAppendAll, Nat.sub_eq_zero_of_le h]
  | cons l rest ih =>
      intro buf h
      have hstep : tbAppendAll cap buf (l :: rest) =
          tbAppendAll cap (tbAppend cap buf l) rest := rfl
      set A := buf ++ [l] with hA
      have hlenA : A.length = buf.length + 1 := by simp [hA]
      have hk : (tbAppend cap buf l) = A.drop (A.length - cap) := rfl
      have hklen : (tbAppend cap buf l).length ≤ cap := by
        rw [hk, List.length_drop]
        omega
      rw [hstep, ih _ hklen, hk, List.length_drop]
      rw [drop_append_left A rest _ (Nat.sub_le _ _), List.drop_drop]
      have hAr : A ++ rest = buf ++ l :: rest := by simp [hA]
      rw [hAr]
      congr 1
      simp only [List.length_cons]
      omega

theorem tbAppendAll_length_le (cap : Nat) (ls buf : List TailLine)
    (h : buf.length ≤ cap) : (tbAppendAll cap buf ls).length ≤ cap := by
  rw [tbAppendAll_eq_drop cap ls buf h]
  simp only [List.length_drop, List.length_append]
  omega

theorem tbAppendAll_of_le (cap : Nat) (ls : List TailLine) (h : ls.length ≤ cap) :
    tbAppendAll cap [] ls = ls := by
  rw [tbAppendAll_eq_drop cap ls [] (Nat.zero_le _)]
  simp [Nat.sub_eq_zero_of_le h]

theorem splitNL_ne_nil : ∀ (l : List Byte), splitNL l ≠ [] := by
  intro l
  induction l with
  | nil => simp [splitNL]
  | cons b rest ih =>
      by_cases hb : b = 10
      · simp [splitNL, hb]
      · simp only [splitNL, if_neg hb]
        cases h : splitNL rest with
        | nil => simp
        | cons s ss => simp

theorem splitNL_append_nl (a b : List Byte) :
    splitNL (a ++ 10 :: b) = splitNL a ++ splitNL b := by
  induction a with
  | nil => simp [splitNL]
  | cons c a ih =>
      by_cases hc : c = 10
      · subst hc
        simp [splitNL, ih]
      · cases h : splitNL a with
        | nil => exact absurd h (splitNL_ne_nil a)
        | cons s ss => simp [splitNL, hc, ih, h]

theorem toLines_nil : toLines [] = [] := rfl

theorem toLines_append_nl (a b : List Byte) :
    toLines (a ++ 10 :: b) = toLines a ++ toLines b := by
  unfold toLines
  rw [splitNL_append_nl, List.map_append, List.filter_append]

theorem toLines_concat_nl (a : List Byte) : toLines (a ++ [10]) = toLines a := by
  have h := toLines_append_nl a []
  simpa [toLines_nil] using h

theorem toLines_flatten (cs : List (List Byte)) (last : List Byte)
    (h : ∀ c ∈ cs, ∃ t, c = t ++ [10]) :
    toLines (cs.flatten ++ last) = (cs.map toLines).flatten ++ toLines last := by
  induction cs with
  | nil => simp
  | cons c cs ih =>
      obtain ⟨t, rfl⟩ := h c (by simp)
      have hrest : ∀ x ∈ cs, ∃ u, x = u ++ [10] := fun x hx => h x (by simp [hx])
      have hl : (t ++ [10]) ++ (cs.flatten ++ last) = t ++ 10 :: (cs.flatten ++ last) := by
        simp
      rw [List.flatten_cons, List.append_assoc, hl, toLines_append_nl, ih hrest,
        List.map_cons, List.flatten_cons, toLines_concat_nl, List.append_assoc]

/-- Engine state for the file source: the read cursor (`filePos_`) and the
retained lines of the view. -/
structure TailState where
  cursor : Nat
  buffer : List TailLine
  deriving DecidableEq, Repr

/-- Embedding of `LogTailDisplay::startFileTail` (lines 230-260). The file
is `none` when the path cannot be opened for reading; otherwise its byte
content. Seeds the freshly cleared view from at most the last 100 KiB
(seek to `size - 102400` bytes when larger), keeps only the last
`maxLines` trimmed non-empty lines, and sets the cursor to the file size.
The boolean result records whether a file watcher was installed. -/
def startFileTail (maxLines : Nat) (file : Option (List Byte)) : TailState × Bool :=
  match file with
  | none => ({ cursor := 0, buffer := tbAppendAll maxLines [] [TailLine.cannotOpen] }, false)
  | some content =>
      let fileSize := content.length
      let seekTo := fileSize - 102400
      let rawLines := toLines (content.drop seekTo)
      let lines := if maxLines < rawLines.length
        then rawLines.drop (rawLines.length - maxLines) else rawLines
      ({ cursor := fileSize,
         buffer := tbAppendAll maxLines [] (lines.map TailLine.content) }, true)

/-- Embedding of `LogTailDisplay::onFileChanged` (lines 262-290). The file
is `none` when reopening for reading fails (the handler returns at once).
Otherwise: if the current size is below the cursor, rotation is detected
(cursor reset to 0, view cleared, one marker line appended); an unchanged
size is a spurious notification; otherwise the bytes from the cursor to
the end are read, split into trimmed non-empty lines and appended, and the
cursor advances to the end. The second component lists the lines appended
during this call. -/
def onFileChanged (cap : Nat) (st : TailState) (file : Option (List Byte)) :
    TailState × List TailLine :=
  match file with
  | none => (st, [])
  | some content =>
      let currentSize := content.length
      let st1 := if currentSize < st.cursor then
          { cursor := 0, buffer := tbAppendAll cap [] [TailLine.rotationMarker] }
        else st
      let emitted1 : List TailLine :=
        if currentSize < st.cursor then [TailLine.rotationMarker] else []
      if st1.cursor = currentSize then (st1, emitted1)
      else
        let newLines := (toLines (content.drop st1.cursor)).map TailLine.content
        ({ cursor := currentSize, buffer := tbAppendAll cap st1.buffer newLines },
          emitted1 ++ newLines)

/-- Embedding of the failure path of `LogTailDisplay::startJournalctl`
(lines 293-307): the lines appended while starting the subprocess, one
synthetic error line when the process fails to start and none otherwise. -/
def startJournalctl (started : Bool) : List TailLine :=
  if started then [] else [TailLine.journalStartFailed]

/-- Helper for substring search: does the first list start with the
second? -/
def startsWithL : List Char → List Char → Bool
  | _, [] => true
  | [], _ :: _ => false
  | h :: t, p :: ps => h == p && startsWithL t ps

/-- Embedding of `QString::contains` on character lists: the pattern occurs
as a contiguous run somewhere in the text. -/
def hasSub : List Char → List Char → Bool
  | [], pat => pat.isEmpty
  | h :: t, pat => startsWithL (h :: t) pat || hasSub t pat

/-- Severity classes of the spec, one per colour the widget uses. -/
inductive Severity where
  | error | warn | debug | info | plain
  deriving DecidableEq, Repr

/-- Uppercased 40-character head inspected by `colorForLine` (line 57):
`line.left(40).toUpper()`. `Char.toUpper` matches the Qt uppercasing on
the ASCII range, which covers every keyword tested. -/
def headOf (line : List Char) : List Char := (line.take 40).map Char.toUpper

def hasErrorKw (h : List Char) : Bool :=
  hasSub h "ERROR".toList || hasSub h "FATAL".toList || hasSub h "CRIT".toList ||
    hasSub h "EMERG".toList || hasSub h "ALERT".toList

def hasWarnKw (h : List Char) : Bool := hasSub h "WARN".toList

def hasDebugKw (h : List Char) : Bool :=
  hasSub h "DEBUG".toList || hasSub h "TRACE".toList || hasSub h "VERBOSE".toList

def hasInfoKw (h : List Char) : Bool :=
  hasSub h "INFO".toList || hasSub h "NOTICE".toList

/-- Embedding of the helper `colorForLine` (lines 55-69): test keyword
containment on the uppercased 40-character head in priority order and
return the corresponding hex colour string. -/
def colorForLine (line : List Char) : String :=
  if hasErrorKw (headOf line) then "#ff5555"
  else if hasWarnKw (headOf line) then "#ffb86c"
  else if hasDebugKw (headOf line) then "#6272a4"
  else if hasInfoKw (headOf line) then "#8be9fd"
  else "#c8cee8"

/-- The severity class denoted by each colour `colorForLine` can return. -/
def severityOfColor (c : String) : Severity :=
  if c = "#ff5555" then Severity.error
  else if c = "#ffb86c" then Severity.warn
  else if c = "#6272a4" then Severity.debug
  else if c = "#8be9fd" then Severity.info
  else Severity.plain

/-- Classification of a line, read off from the colour the widget assigns
to it. -/
def classify (line : List Char) : Severity := severityOfColor (colorForLine line)

/-- JSON values as far as the configuration code observes them. -/
inductive JVal where
  | jstr (s : String)
  | jint (n : Int)
  | jundefined
  deriving DecidableEq, Repr

/-- Embedding of `QJsonValue::toString()`: the stored string, or the empty
string for any non-string value. -/
def JVal.toQString : JVal → String
  | .jstr s => s
  | _ => ""

/-- Embedding of `QJsonValue::toInt(d)`: the stored integer, or the
default for any non-numeric value (including a missing key). -/
def JVal.toIntDef : JVal → Int → Int
  | .jint n, _ => n
  | _, d => d

/-- A JSON object, modelled as an association list over unique keys. -/
abbrev JObj := List (String × JVal)

/-- Embedding of `QJsonObject` key lookup (`obj[k]` and `obj.value(k)`):
the first binding for the key, `Undefined` when absent. -/
def jget (o : JObj) (k : String) : JVal :=
  match o.find? (fun kv => kv.1 == k) with
  | some kv => kv.2
  | none => JVal.jundefined

/-- The three source kinds of `LogTailConfig::Source` (line 44). -/
inductive Source where
  | none | file | journalctl
  deriving DecidableEq, Repr

/-- Embedding of `struct LogTailConfig` (lines 43-49) with its member
defaults. -/
structure LogTailConfig where
  source : Source := Source.none
  filePath : String := ""
  journalUnit : String := ""
  maxLines : Int := 500
  deriving DecidableEq, Repr

/-- The default-constructed configuration a fresh `LogTailDisplay`
carries. -/
def defaultConfig : LogTailConfig := {}

/-- Embedding of `LogTailDisplay::saveConfig` (lines 85-96). -/
def saveConfig (c : LogTailConfig) : JObj :=
  [("sourceType", JVal.jstr (match c.source with
      | Source.file => "file"
      | Source.journalctl => "journalctl"
      | Source.none => "")),
   ("filePath", JVal.jstr c.filePath),
   ("journalUnit", JVal.jstr c.journalUnit),
   ("maxLines", JVal.jint c.maxLines)]

/-- Embedding of the configuration part of `LogTailDisplay::loadConfig`
(lines 98-109); the trailing `applySource()` call restarts the source and
is modelled by `startFileTail` and `startJournalctl`. -/
def loadConfig (o : JObj) : LogTailConfig :=
  { source :=
      if (jget o "sourceType").toQString = "file" then Source.file
      else if (jget o "sourceType").toQString = "journalctl" then Source.journalctl
      else Source.none,
    filePath := (jget o "filePath").toQString,
    journalUnit := (jget o "journalUnit").toQString,
    maxLines := (jget o "maxLines").toIntDef 500 }

/-- Modelled from the spec: the buffer-size spin box of the configuration
dialog (`openConfig`, lines 397-401) is created with `setRange(50, 5000)`;
`QSpinBox` (a Qt class, outside this repository) clamps any value set into
it to that range, so the value read back when the dialog is accepted is
the requested value clamped to [50, 5000]. -/
def dialogMaxLines (requested : Int) : Int := max 50 (min 5000 requested)

/-- Embedding of the `LogTailWidget` plugin state (`LogTailWidget.h` lines
39-41): `display` is the configuration held by the created view when one
exists, `pending` the JSON object last stored by `deserialize`. -/
structure WidgetState where
  display : Option LogTailConfig
  pending : JObj
  deriving DecidableEq, Repr

/-- Embedding of `LogTailWidget::deserialize` (lines 473-476): store the
object in `pending_` and, when a view exists, load it into the view. -/
def deserializeW (st : WidgetState) (d : JObj) : WidgetState :=
  { pending := d,
    display := st.display.map (fun _ => loadConfig d) }

/-- Embedding of `LogTailWidget::serialize` (lines 469-471): the view
configuration when a view exists, otherwise the pending object. -/
def serializeW (st : WidgetState) : JObj :=
  match st.display with
  | some cfg => saveConfig cfg
  | none => st.pending

/-- Embedding of `LogTailWidget::createWidget` (lines 462-467): a fresh
view starts with the default configuration and then loads `pending_` when
that object is non-empty. -/
def createWidgetW (st : WidgetState) : WidgetState :=
  { st with
    display := some (if st.pending.isEmpty then defaultConfig else loadConfig st.pending) }

/-- C1: for every sequence of appended lines, the buffer holds at most
`cap` lines after every append (the state after the appends of any
initial segment `pre` is `tbAppendAll cap [] pre`, and batch appends
decompose into successive single appends), and the retained lines are
exactly the most recent ones in insertion order — the suffix of the
append sequence — so the dropped lines are exactly the oldest. -/
theorem c1_buffer_bounded_fifo (cap : Nat) (pre suf : List TailLine) :
    (tbAppendAll cap [] pre).length ≤ cap ∧
    tbAppendAll cap (tbAppendAll cap [] pre) suf = tbAppendAll cap [] (pre ++ suf) ∧
    tbAppendAll cap [] (pre ++ suf) = (pre ++ suf).drop ((pre ++ suf).length - cap) := by
  refine ⟨tbAppendAll_length_le cap pre [] (Nat.zero_le _),
    (tbAppendAll_append cap [] pre suf).symm, ?_⟩
  rw [tbAppendAll_eq_drop cap _ [] (Nat.zero_le _)]
  simp

/-- C2, counterexample: the claim that feeding chunks one at a time yields
the same lines as splitting the concatenation fails on the code, because
`onFileChanged` splits each delta independently and carries nothing over.
The file first contains the two bytes `"ab"` and later `"abcd\n"`; the two
delta reads produce the lines `"ab"` and `"cd"`, while splitting the whole
content at once produces the single line `"abcd"`. -/
theorem c2_split_invariance_cex :
    ¬ ((onFileChanged 500 (onFileChanged 500 ⟨0, []⟩ (some [97, 98])).1
          (some [97, 98, 99, 100, 10])).1.buffer
        = (toLines [97, 98, 99, 100, 10]).map TailLine.content) := by
  decide

/-- C2, amended: splitting chunk by chunk agrees with splitting the whole
byte sequence at once exactly when every chunk boundary falls on a line
break: if every chunk but the last ends with the newline byte, the
concatenation of the per-chunk line lists equals the line list of the
concatenated bytes. An unterminated line at the end of a chunk is emitted
as its own line, not carried into the next chunk. -/
theorem c2_split_invariance_at_line_breaks (cs : List (List Byte)) (last : List Byte)
    (h : ∀ c ∈ cs, ∃ t, c = t ++ [10]) :
    ((cs ++ [last]).map toLines).flatten = toLines (cs ++ [last]).flatten := by
  rw [List.map_append, List.flatten_append, List.flatten_append,
    toLines_flatten cs _ h]
  simp

/-- C2, witness: the amended theorem applied to the chunks `"hi\n"`,
`"j\n"` and the unterminated final chunk `"k"`. -/
theorem c2_split_invariance_at_line_breaks_witness :
    (([[104, 105, 10], [106, 10]] ++ [[107]]).map toLines).flatten
      = toLines (([[104, 105, 10], [106, 10]] ++ [[107]]) : List (List Byte)).flatten := by
  apply c2_split_invariance_at_line_breaks
  intro c hc
  simp only [List.mem_cons, List.not_mem_nil, or_false] at hc
  rcases hc with rfl | rfl
  · exact ⟨[104, 105], rfl⟩
  · exact ⟨[106], rfl⟩

/-- C3: on a change notification where the current file size is strictly
below the stored cursor, the handler resets the cursor (finally advanced
to the new size after reading the whole shrunken file), replaces the
buffer by the rotation marker followed by the lines of the shrunken file
(capacity applied), and the lines emitted during the call are exactly one
rotation marker followed by the content lines — the marker comes first. -/
theorem c3_rotation (cap : Nat) (st : TailState) (content : List Byte)
    (hrot : content.length < st.cursor) (hcap : 1 ≤ cap) :
    onFileChanged cap st (some content)
      = ({ cursor := content.length,
           buffer := tbAppendAll cap [] (TailLine.rotationMarker ::
             (toLines content).map TailLine.content) },
         TailLine.rotationMarker :: (toLines content).map TailLine.content) := by
  have hmarker : tbAppendAll cap [] [TailLine.rotationMarker] = [TailLine.rotationMarker] :=
    tbAppendAll_of_le cap _ (by simpa using hcap)
  by_cases h0 : content.length = 0
  · have hc : content = [] := List.length_eq_zero.mp h0
    subst hc
    have hrot0 : 0 < st.cursor := hrot
    simp [onFileChanged, hrot0, toLines_nil]
  · have h0' : ¬ ((0 : Nat) = content.length) := fun h => h0 h.symm
    simp [onFileChanged, hrot, h0', ← tbAppendAll_append]

/-- C3, witness: a cursor of 5 sees a file shrunk to 3 bytes (`"hi\n"`);
the buffer is replaced by the marker followed by the line `"hi"`. -/
theorem c3_rotation_witness :
    onFileChanged 3 ⟨5, [TailLine.content [97]]⟩ (some [104, 105, 10])
      = ({ cursor := 3,
           buffer := tbAppendAll 3 [] (TailLine.rotationMarker ::
             (toLines [104, 105, 10]).map TailLine.content) },
         TailLine.rotationMarker :: (toLines [104, 105, 10]).map TailLine.content) :=
  c3_rotation 3 ⟨5, [TailLine.content [97]]⟩ [104, 105, 10] (by decide) (by decide)

/-- C5: opening a readable file seeds the view only from the tail of the
file: the cursor becomes the file size, the buffer holds at most
`maxLines` lines, and those lines are exactly the last `maxLines` trimmed
non-empty lines of the final 100 KiB window (bytes from
`size - 102400` on; the whole file when smaller), and a watcher is
installed. -/
theorem c5_seed_from_tail (maxLines : Nat) (content : List Byte) :
    (startFileTail maxLines (some content)).1.cursor = content.length ∧
    (startFileTail maxLines (some content)).1.buffer.length ≤ maxLines ∧
    (startFileTail maxLines (some content)).1.buffer =
      ((toLines (content.drop (content.length - 102400))).drop
        ((toLines (content.drop (content.length - 102400))).length - maxLines)).map
        TailLine.content ∧
    (startFileTail maxLines (some content)).2 = true := by
  have hlines : (if maxLines < (toLines (content.drop (content.length - 102400))).length
      then (toLines (content.drop (content.length - 102400))).drop
        ((toLines (content.drop (content.length - 102400))).length - maxLines)
      else toLines (content.drop (content.length - 102400)))
      = (toLines (content.drop (content.length - 102400))).drop
        ((toLines (content.drop (content.length - 102400))).length - maxLines) := by
    split
    · rfl
    · rename_i hle
      rw [Nat.sub_eq_zero_of_le (Nat.le_of_not_lt hle), List.drop_zero]
  have hshort : ((toLines (content.drop (content.length - 102400))).drop
      ((toLines (content.drop (content.length - 102400))).length - maxLines)).length
      ≤ maxLines := by
    simp only [List.length_drop]
    omega
  simp only [startFileTail, hlines]
  refine ⟨by trivial, ?_, ?_, by trivial⟩
  · rw [tbAppendAll_of_le _ _ (by simpa using hshort)]
    simpa using hshort
  · rw [tbAppendAll_of_le _ _ (by simpa using hshort)]

/-- C6, counterexample: the claim that a failed delta read produces a
synthetic status line fails on the code: when the file cannot be reopened
the handler returns at once, so at this concrete state (cursor 5, one
retained line) nothing is emitted and nothing changes. -/
theorem c6_failed_read_silent_cex :
    (onFileChanged 500 ⟨5, [TailLine.content [97]]⟩ none).2 = []
      ∧ (onFileChanged 500 ⟨5, [TailLine.content [97]]⟩ none).1
          = ⟨5, [TailLine.content [97]]⟩ := by
  decide

/-- C6, amended: when the delta read fails the handler is a silent no-op:
no line is emitted, the state (cursor and buffer) is unchanged — the watch
is simply left in place — and the next notification is processed exactly
as if the failed one had never happened. -/
theorem c6_failed_read_noop (cap : Nat) (st : TailState) (file : Option (List Byte)) :
    onFileChanged cap st none = (st, []) ∧
    onFileChanged cap (onFileChanged cap st none).1 file = onFileChanged cap st file :=
  ⟨rfl, rfl⟩

/-- C7: an unopenable file path leaves the engine in a well-defined
degraded state holding exactly one synthetic error line, with cursor 0 and
no watcher installed — so no further notifications arrive and nothing is
retried until the user reconfigures; a journalctl process that fails to
start likewise surfaces exactly one synthetic error line. -/
theorem c7_source_unavailable (maxLines : Nat) (h : 1 ≤ maxLines) :
    startFileTail maxLines none = (⟨0, [TailLine.cannotOpen]⟩, false) ∧
    startJournalctl false = [TailLine.journalStartFailed] := by
  refine ⟨?_, rfl⟩
  simp only [startFileTail]
  rw [tbAppendAll_of_le _ _ (by simpa using h)]

/-- C7, witness: the degraded state at the default capacity 500. -/
theorem c7_source_unavailable_witness :
    startFileTail 500 none = (⟨0, [TailLine.cannotOpen]⟩, false) ∧
    startJournalctl false = [TailLine.journalStartFailed] :=
  c7_source_unavailable 500 (by decide)

/-- C4: classification looks only at the first 40 characters (two lines
with equal 40-character heads classify alike, so in particular it is a
pure deterministic function of that head, case-insensitively uppercased),
follows the first-match priority order error, warn, debug, info, plain
over the keyword groups, and on the concrete examples:
`"ERROR: disk full"` is Error, `"2024-01-01 INFO starting"` is Info,
`"plain text"` is Plain, and a line whose only `"warn"` starts at
character 200 is Plain. -/
theorem c4_classification (s t : List Char) (h : s.take 40 = t.take 40) :
    classify s = classify t ∧
    classify "ERROR: disk full".toList = Severity.error ∧
    classify "2024-01-01 INFO starting".toList = Severity.info ∧
    classify "plain text".toList = Severity.plain ∧
    classify (List.replicate 200 'x' ++ "warn appears here".toList) = Severity.plain ∧
    classify s =
      (if hasErrorKw (headOf s) then Severity.error
       else if hasWarnKw (headOf s) then Severity.warn
       else if hasDebugKw (headOf s) then Severity.debug
       else if hasInfoKw (headOf s) then Severity.info
       else Severity.plain) := by
  have hchar : ∀ u : List Char,
      classify u =
        (if hasErrorKw (headOf u) then Severity.error
         else if hasWarnKw (headOf u) then Severity.warn
         else if hasDebugKw (headOf u) then Severity.debug
         else if hasInfoKw (headOf u) then Severity.info
         else Severity.plain) := by
    intro u
    unfold classify colorForLine
    split_ifs <;> rfl
  have hhead : headOf s = headOf t := by
    unfold headOf
    rw [h]
  refine ⟨?_, by decide, by decide, by decide, by decide, hchar s⟩
  rw [hchar s, hchar t, hhead]

/-- C4, witness: two lines that agree on their first 40 characters but
differ afterwards classify alike, and the concrete examples evaluate as
claimed. -/
theorem c4_classification_witness :
    classify ("INFO".toList ++ List.replicate 36 ' ' ++ ['A'])
        = classify ("INFO".toList ++ List.replicate 36 ' ' ++ ['Z']) ∧
    classify "ERROR: disk full".toList = Severity.error ∧
    classify "2024-01-01 INFO starting".toList = Severity.info ∧
    classify "plain text".toList = Severity.plain ∧
    classify (List.replicate 200 'x' ++ "warn appears here".toList) = Severity.plain ∧
    classify ("INFO".toList ++ List.replicate 36 ' ' ++ ['A'])
      = (if hasErrorKw (headOf ("INFO".toList ++ List.replicate 36 ' ' ++ ['A']))
          then Severity.error
         else if hasWarnKw (headOf ("INFO".toList ++ List.replicate 36 ' ' ++ ['A']))
          then Severity.warn
         else if hasDebugKw (headOf ("INFO".toList ++ List.replicate 36 ' ' ++ ['A']))
          then Severity.debug
         else if hasInfoKw (headOf ("INFO".toList ++ List.replicate 36 ' ' ++ ['A']))
          then Severity.info
         else Severity.plain) :=
  c4_classification ("INFO".toList ++ List.replicate 36 ' ' ++ ['A'])
    ("INFO".toList ++ List.replicate 36 ' ' ++ ['Z']) (by decide)

/-- C8: deserialising the serialisation of any configuration restores it
exactly — source kind (including `Unconfigured`, saved as the empty
string), file path, journal unit and maxLines all round-trip. -/
theorem c8_config_roundtrip (c : LogTailConfig) : loadConfig (saveConfig c) = c := by
  rcases c with ⟨src, p, u, m⟩
  cases src <;> rfl

/-- C9, counterexample: the claim that every applied configuration has
`maxLines` between 50 and 5000 fails on the code: deserialising the
persisted object `{maxLines: 7}` yields a configuration with
`maxLines = 7`, which `loadConfig` applies without clamping. -/
theorem c9_maxlines_cex :
    (loadConfig [("maxLines", JVal.jint 7)]).maxLines = 7 ∧
    ¬ (50 ≤ (loadConfig [("maxLines", JVal.jint 7)]).maxLines) := by
  decide

/-- C9, amended: configurations produced by the configuration dialog have
`maxLines` between 50 and 5000 inclusive (the spin box clamps to its
range), and a persisted object without a `maxLines` field deserialises to
the default 500; but a persisted `maxLines` value is applied as stored,
without clamping. -/
theorem c9_maxlines_range (r : Int) (o : JObj)
    (habsent : jget o "maxLines" = JVal.jundefined) :
    50 ≤ dialogMaxLines r ∧ dialogMaxLines r ≤ 5000 ∧
    (loadConfig o).maxLines = 500 := by
  refine ⟨le_max_left _ _, ?_, ?_⟩
  · exact max_le (by norm_num) (min_le_left _ _)
  · simp [loadConfig, habsent, JVal.toIntDef]

/-- C9, witness: a dialog request of 10000 is clamped into range, and an
object carrying only a source type deserialises to `maxLines = 500`. -/
theorem c9_maxlines_range_witness :
    50 ≤ dialogMaxLines 10000 ∧ dialogMaxLines 10000 ≤ 5000 ∧
    (loadConfig [("sourceType", JVal.jstr "file")]).maxLines = 500 :=
  c9_maxlines_range 10000 [("sourceType", JVal.jstr "file")] (by decide)

/-- C10: when `deserialize(d)` runs before any view exists, a subsequent
`serialize()` returns exactly `d` — every key, known or unknown to the
configuration format, preserved verbatim — and creating the view
afterwards applies the pending object to it (loading `d` when non-empty,
the default configuration otherwise). -/
theorem c10_pending_roundtrip (st : WidgetState) (d : JObj)
    (h : st.display = Option.none) :
    serializeW (deserializeW st d) = d ∧
    (createWidgetW (deserializeW st d)).display
      = some (if d.isEmpty then defaultConfig else loadConfig d) := by
  constructor
  · simp [serializeW, deserializeW, h]
  · simp [createWidgetW, deserializeW, h]

/-- C10, witness: an object with an unknown key `"custom"` survives the
round-trip verbatim and is the configuration loaded into the view created
afterwards. -/
theorem c10_pending_roundtrip_witness :
    serializeW (deserializeW ⟨Option.none, []⟩
        [("custom", JVal.jstr "kept"), ("sourceType", JVal.jstr "file")])
      = [("custom", JVal.jstr "kept"), ("sourceType", JVal.jstr "file")] ∧
    (createWidgetW (deserializeW ⟨Option.none, []⟩
        [("custom", JVal.jstr "kept"), ("sourceType", JVal.jstr "file")])).display
      = some (if ([("custom", JVal.jstr "kept"),
            ("sourceType", JVal.jstr "file")] : JObj).isEmpty
          then defaultConfig
          else loadConfig [("custom", JVal.jstr "kept"), ("sourceType", JVal.jstr "file")]) :=
  c10_pending_roundtrip ⟨Option.none, []⟩
    [("custom", JVal.jstr "kept"), ("sourceType", JVal.jstr "file")] rfl

end LogTail
